import Mathlib

/-!
Verification of the Tari bounded byte-array codec (FixedByteArray,
`base_layer/core/src/proof_of_work/monero_rx/fixed_array.rs`) and the orphan
block validator (`base_layer/core/src/validation/block_validators/orphan.rs`),
shallowly embedded in Lean.

Bytes are modelled as `Nat` (every value in the source is a `u8`; nothing in
the embedded code depends on the bound 256 except the `u8::try_from` guard,
which is modelled explicitly).  Byte streams are lists consumed from the
front, matching the `&mut &[u8]` reader discipline of borsh.
-/

/-- Decidable equality on Except, used only to evaluate the model on concrete
inputs. -/
instance exceptDecEq {ε α : Type} [DecidableEq ε] [DecidableEq α] :
    DecidableEq (Except ε α) := fun x y =>
  match x, y with
  | Except.ok a, Except.ok b =>
    if h : a = b then isTrue (by rw [h])
    else isFalse (by intro hc; injection hc; contradiction)
  | Except.ok _, Except.error _ => isFalse (by intro hc; cases hc)
  | Except.error _, Except.ok _ => isFalse (by intro hc; cases hc)
  | Except.error e, Except.error f =>
    if h : e = f then isTrue (by rw [h])
    else isFalse (by intro hc; injection hc; contradiction)

/-! ## FixedByteArray codec (fixed_array.rs) -/

/-- Constant MAX_ARR_SIZE from fixed_array.rs: the fixed capacity, 63 bytes. -/
def MAX_ARR_SIZE : Nat := 63

/-- Structure FixedByteArray: fixed storage `elems` (a list of length
`MAX_ARR_SIZE` in every value the source can construct) plus the number
`len` of logically valid bytes (a `u8` in the source).  Rust derives
`PartialEq`/`Eq` structurally over both fields, which matches Lean's
structural equality on this structure. -/
structure FixedByteArray where
  elems : List Nat
  len : Nat
deriving DecidableEq, Repr

/-- Error type of tari_utilities ByteArray::from_bytes; only the variant this
file produces is modelled. -/
inductive ByteArrayError where
  | IncorrectLength
deriving DecidableEq, Repr

/-- Impl Default for FixedByteArray: zero-filled storage, `len = 0`. -/
def FixedByteArray.default : FixedByteArray := ⟨List.replicate MAX_ARR_SIZE 0, 0⟩

/-- Function FixedByteArray::new, defined in the source as Default::default(). -/
def FixedByteArray.new : FixedByteArray := FixedByteArray.default

/-- Function ByteArray::from_bytes for FixedByteArray: reject inputs longer
than MAX_ARR_SIZE with IncorrectLength, then convert the length to `u8`
(`u8::try_from`, which can only fail for lengths ≥ 256 — unreachable after the
first guard), then copy the input into the prefix of a zeroed 63-byte array
(`elems[..len].copy_from_slice(&bytes[..len])`). -/
def from_bytes (bytes : List Nat) : Except ByteArrayError FixedByteArray :=
  if MAX_ARR_SIZE < bytes.length then Except.error ByteArrayError.IncorrectLength
  else if 256 ≤ bytes.length then Except.error ByteArrayError.IncorrectLength
  else Except.ok ⟨bytes.take bytes.length ++ (List.replicate MAX_ARR_SIZE 0).drop bytes.length,
                  bytes.length⟩

/-- Impl Deref for FixedByteArray: `&self.elems[..self.len as usize]`.  In
every value the source can construct `len ≤ elems.length`, so the Rust slice
cannot panic; `List.take` agrees with it there. -/
def FixedByteArray.deref (a : FixedByteArray) : List Nat := a.elems.take a.len

/-- Function FixedByteArray::as_slice: `&self[..self.len()]`, i.e. the first
`len` elements of the deref view. -/
def FixedByteArray.as_slice (a : FixedByteArray) : List Nat := a.deref.take a.len

/-- Function ByteArray::as_bytes for FixedByteArray: delegates to as_slice. -/
def FixedByteArray.as_bytes (a : FixedByteArray) : List Nat := a.as_slice

/-- Function FixedByteArray::is_empty: `self.len == 0`. -/
def FixedByteArray.is_empty (a : FixedByteArray) : Bool := a.len == 0

/-- Function FixedByteArray::is_full: `self.len() == MAX_ARR_SIZE`. -/
def FixedByteArray.is_full (a : FixedByteArray) : Bool := a.len == MAX_ARR_SIZE

/-- Impl BorshSerialize for FixedByteArray: write `len` as one byte, then the
items of `as_slice().iter().take(len)` in order. -/
def serialize (a : FixedByteArray) : List Nat :=
  a.len :: a.as_slice.take a.len

/-- Error outcomes of BorshDeserialize for FixedByteArray.
`capacityExceeded` models the io::ErrorKind::InvalidInput error "length
exceeded maximum of 63-bytes for FixedByteArray" (the spec's
CapacityExceeded); `unexpectedEof` models borsh's io::ErrorKind::UnexpectedEof
raised by `u8::deserialize` on an exhausted reader (the spec's Truncated);
`unreachablePanic` marks the `.unwrap()` on the final `from_bytes` call, so
that panic-freedom is a provable statement about the model. -/
inductive DecodeError where
  | capacityExceeded
  | unexpectedEof
  | unreachablePanic
deriving DecidableEq, Repr

/-- Helper for the payload loop `for _ in 0..len { bytes.push(u8::deserialize(buf)?) }`:
read `n` bytes off the front of the stream, returning the bytes read and the
remaining stream; on exhaustion return UnexpectedEof with the stream fully
consumed. -/
def readBytesAcc : Nat → List Nat → Except DecodeError (List Nat) × List Nat
  | 0, buf => (Except.ok [], buf)
  | _ + 1, [] => (Except.error DecodeError.unexpectedEof, [])
  | n + 1, b :: rest =>
    match readBytesAcc n rest with
    | (Except.ok bs, buf) => (Except.ok (b :: bs), buf)
    | (Except.error e, buf) => (Except.error e, buf)

/-- Impl BorshDeserialize for FixedByteArray: read one length byte, reject
lengths above MAX_ARR_SIZE before reading any payload byte, then read exactly
`len` payload bytes and build the result with `from_bytes(..).unwrap()`.
The returned list is what remains of the input stream (the advanced `&mut
&[u8]` reader). -/
def deserialize (buf : List Nat) : Except DecodeError FixedByteArray × List Nat :=
  match buf with
  | [] => (Except.error DecodeError.unexpectedEof, [])
  | len :: rest =>
    if MAX_ARR_SIZE < len then (Except.error DecodeError.capacityExceeded, rest)
    else
      match readBytesAcc len rest with
      | (Except.ok bytes, buf) =>
        match from_bytes bytes with
        | Except.ok fba => (Except.ok fba, buf)
        | Except.error _ => (Except.error DecodeError.unreachablePanic, buf)
      | (Except.error e, buf) => (Except.error e, buf)

/-! ## Orphan block validator (orphan.rs)

The validator orchestrates eleven external check functions over a candidate
block.  Blocks, consensus constants, the consensus manager (rules), the crypto
factories and the error payloads of the checks are opaque to this file, so
they are type parameters; the check functions themselves live in
`validation/helpers.rs` (outside the embedded sources) and are therefore a
record of collaborator functions handed to `validate`. -/

/-- Block header: only the height is read by the validator. -/
structure Header where
  height : Nat

/-- Body of a block: ordered collections of inputs, outputs and kernels. -/
structure Body (I O K : Type) where
  inputs : List I
  outputs : List O
  kernels : List K

/-- Structure Block: a header plus a body. -/
structure Block (I O K : Type) where
  header : Header
  body : Body I O K

/-- Type ValidationError: the variant the orchestrator itself produces,
plus an opaque payload `custom` covering every variant a collaborator check
can return. -/
inductive ValidationError (E : Type) where
  | ValidatingGenesis
  | custom (e : E)
deriving DecidableEq, Repr

/-- Structure OrphanBlockValidator: the state fixed at construction by
OrphanBlockValidator::new. -/
structure OrphanBlockValidator (R F : Type) where
  rules : R
  bypass_range_proof_verification : Bool
  factories : F

/-- The external collaborators consumed by OrphanBlockValidator::validate:
the consensus-constants lookup on the rule set, and the eleven check
functions of `validation/helpers.rs`, each with the argument shape of its
call site in orphan.rs. -/
structure Checks (I O K C R F E : Type) where
  consensus_constants : R → Nat → C
  validate_versions : Body I O K → C → Except (ValidationError E) Unit
  check_block_weight : Block I O K → C → Except (ValidationError E) Unit
  check_sorting_and_duplicates : Body I O K → Except (ValidationError E) Unit
  check_permitted_output_types : C → O → Except (ValidationError E) Unit
  check_validator_node_registration_utxo : C → O → Except (ValidationError E) Unit
  check_total_burned : Body I O K → Except (ValidationError E) Unit
  check_maturity : Nat → List I → Except (ValidationError E) Unit
  check_kernel_lock_height : Nat → List K → Except (ValidationError E) Unit
  check_output_features : Block I O K → R → Except (ValidationError E) Unit
  check_coinbase_output : Block I O K → R → F → Except (ValidationError E) Unit
  check_accounting_balance : Block I O K → R → Bool → F → Except (ValidationError E) Unit

/-- The per-output loop of validate: for each output in body order, run
check_permitted_output_types then check_validator_node_registration_utxo,
propagating the first error. -/
def checkOutputs {O E : Type} (p q : O → Except E Unit) : List O → Except E Unit
  | [] => Except.ok ()
  | o :: rest => do
    p o
    q o
    checkOutputs p q rest

/-- Function OrphanBlockValidator::validate: the genesis guard followed by the
fail-fast pipeline, in the source order.  The debug-only `block_id` diagnostic
string of the source has no effect on the result and is omitted. -/
def validate {I O K C R F E : Type} (ck : Checks I O K C R F E)
    (v : OrphanBlockValidator R F) (block : Block I O K) :
    Except (ValidationError E) Unit :=
  let height := block.header.height
  if height = 0 then Except.error ValidationError.ValidatingGenesis
  else do
    let constants := ck.consensus_constants v.rules height
    ck.validate_versions block.body constants
    ck.check_block_weight block constants
    ck.check_sorting_and_duplicates block.body
    checkOutputs (ck.check_permitted_output_types constants)
      (ck.check_validator_node_registration_utxo constants) block.body.outputs
    ck.check_total_burned block.body
    ck.check_maturity height block.body.inputs
    ck.check_kernel_lock_height height block.body.kernels
    ck.check_output_features block v.rules
    ck.check_coinbase_output block v.rules v.factories
    ck.check_accounting_balance block v.rules v.bypass_range_proof_verification v.factories

/-- Specification-side combinator: the result of a fail-fast pipeline is the
error of the first failing step, or success when every step succeeds. -/
def firstError {E : Type} : List (Except E Unit) → Except E Unit
  | [] => Except.ok ()
  | r :: rest =>
    match r with
    | Except.ok _ => firstError rest
    | Except.error e => Except.error e

/-- Specification-side list of the pipeline step results for a non-genesis
block, in the order declared in the spec (constants resolution is a pure
lookup feeding the steps, not a step result itself).  The per-output loop
contributes, for each output in body order, its permitted-output-types result
followed by its validator-node-registration result.  The accounting-balance
step is kept as the final singleton so that dropping the last element yields
exactly the results of the steps before it. -/
def stepResults {I O K C R F E : Type} (ck : Checks I O K C R F E)
    (v : OrphanBlockValidator R F) (block : Block I O K) :
    List (Except (ValidationError E) Unit) :=
  let height := block.header.height
  let constants := ck.consensus_constants v.rules height
  ([ck.validate_versions block.body constants,
    ck.check_block_weight block constants,
    ck.check_sorting_and_duplicates block.body]
   ++ (block.body.outputs.flatMap fun o =>
        [ck.check_permitted_output_types constants o,
         ck.check_validator_node_registration_utxo constants o])
   ++ [ck.check_total_burned block.body,
       ck.check_maturity height block.body.inputs,
       ck.check_kernel_lock_height height block.body.kernels,
       ck.check_output_features block v.rules,
       ck.check_coinbase_output block v.rules v.factories])
  ++ [ck.check_accounting_balance block v.rules v.bypass_range_proof_verification v.factories]

/-- Error payload of the spec-modelled accounting-balance check: the balance
equation failing to close, or an individual range proof failing to verify. -/
inductive AccountingError where
  | InvalidAccounting
  | InvalidRangeProof
deriving DecidableEq, Repr

/-- Modelled from the spec: the body of `check_accounting_balance` lives in
`validation/helpers.rs`, which is not among the embedded sources (only its
call site in orphan.rs is).  Per spec §4.2 step 11, the block's value balance
equation must close, and unless `bypass_range_proof` is set every output's
range proof must verify; the flag skips only the cryptographic range-proof
check while still requiring the arithmetic balance to close.  The block,
rules and factories are abstracted to the two facts the step consults:
whether the arithmetic balance closes and whether all range proofs verify. -/
def check_accounting_balance_model
    (balance_closes range_proofs_valid bypass_range_proof : Bool) :
    Except AccountingError Unit :=
  if !balance_closes then Except.error AccountingError.InvalidAccounting
  else if bypass_range_proof then Except.ok ()
  else if !range_proofs_valid then Except.error AccountingError.InvalidRangeProof
  else Except.ok ()

/-! ## Concrete instantiations (used to evaluate the model) -/

/-- An empty block body over trivial input/output/kernel types. -/
def unitBody : Body Unit Unit Unit := ⟨[], [], []⟩

/-- A block of the given height with an empty body. -/
def blockAt (h : Nat) : Block Unit Unit Unit := ⟨⟨h⟩, unitBody⟩

/-- A concrete collaborator bundle (error payloads are step numbers) in which
the weight check fails with code 3 and the accounting-balance check fails
with code 11, every other check passing. -/
def natChecks : Checks Unit Unit Unit Unit Unit Unit Nat :=
  ⟨fun _ _ => (), fun _ _ => Except.ok (),
   fun _ _ => Except.error (ValidationError.custom 3),
   fun _ => Except.ok (), fun _ _ => Except.ok (), fun _ _ => Except.ok (),
   fun _ => Except.ok (), fun _ _ => Except.ok (), fun _ _ => Except.ok (),
   fun _ _ => Except.ok (), fun _ _ _ => Except.ok (),
   fun _ _ _ _ => Except.error (ValidationError.custom 11)⟩

/-- A concrete collaborator bundle in which every check passes. -/
def okChecks : Checks Unit Unit Unit Unit Unit Unit Nat :=
  ⟨fun _ _ => (), fun _ _ => Except.ok (), fun _ _ => Except.ok (),
   fun _ => Except.ok (), fun _ _ => Except.ok (), fun _ _ => Except.ok (),
   fun _ => Except.ok (), fun _ _ => Except.ok (), fun _ _ => Except.ok (),
   fun _ _ => Except.ok (), fun _ _ _ => Except.ok (), fun _ _ _ _ => Except.ok ()⟩

/-- The buffers constructible by the public constructors of the source:
new (which is Default::default, so the same single value covers both), a
successful from_bytes, and a successful deserialize. -/
inductive Produced : FixedByteArray → Prop where
  | new : Produced FixedByteArray.new
  | fromBytes (bytes : List Nat) (fba : FixedByteArray) :
      from_bytes bytes = Except.ok fba → Produced fba
  | deser (buf rest : List Nat) (fba : FixedByteArray) :
      deserialize buf = (Except.ok fba, rest) → Produced fba

/-! ## Helper lemmas -/

lemma except_bind_ok {E A B : Type} (x : A) (f : A → Except E B) :
    (Except.ok x >>= f) = f x := rfl

lemma except_bind_error {E A B : Type} (e : E) (f : A → Except E B) :
    ((Except.error e : Except E A) >>= f) = Except.error e := rfl

lemma except_bind_assoc {E A B C : Type} (a : Except E A) (f : A → Except E B)
    (g : B → Except E C) : ((a >>= f) >>= g) = a >>= fun x => f x >>= g := by
  cases a <;> rfl

lemma except_bind_pure_unit {E : Type} (r : Except E Unit) :
    (r >>= fun _ => Except.ok ()) = r := by
  cases r with
  | ok a => cases a; rfl
  | error e => rfl

lemma dropLast_append_singleton {A : Type} (l : List A) (a : A) :
    (l ++ [a]).dropLast = l := by simp

lemma firstError_nil {E : Type} : firstError ([] : List (Except E Unit)) = Except.ok () := rfl

lemma firstError_cons {E : Type} (r : Except E Unit) (l : List (Except E Unit)) :
    firstError (r :: l) = r >>= fun _ => firstError l := by
  cases r <;> rfl

lemma firstError_append {E : Type} (l1 l2 : List (Except E Unit)) :
    firstError (l1 ++ l2) = firstError l1 >>= fun _ => firstError l2 := by
  induction l1 with
  | nil => rfl
  | cons r l ih =>
    cases r with
    | ok a => simpa [firstError_cons, except_bind_ok] using ih
    | error e => rfl

lemma checkOutputs_eq_firstError {O E : Type} (p q : O → Except E Unit) (os : List O) :
    checkOutputs p q os = firstError (os.flatMap fun o => [p o, q o]) := by
  induction os with
  | nil => rfl
  | cons o os ih =>
    cases hp : p o with
    | error e => simp [checkOutputs, List.flatMap_cons, firstError_cons, hp, except_bind_error]
    | ok a =>
      cases hq : q o with
      | error e =>
        simp [checkOutputs, List.flatMap_cons, firstError_cons, hp, hq,
          except_bind_ok, except_bind_error]
      | ok b =>
        simp [checkOutputs, List.flatMap_cons, firstError_cons, hp, hq,
          except_bind_ok, ih]

/-! ## Claim theorems: validator -/

/-- Claim C1: for every block of height > 0, validate runs the pipeline steps
strictly in the declared order — constants resolution feeding validate_versions,
check_block_weight, check_sorting_and_duplicates, the per-output
permitted-types / validator-node-registration pairs in body order,
check_total_burned, check_maturity, check_kernel_lock_height,
check_output_features, check_coinbase_output, check_accounting_balance — and
returns the error of the first failing step without executing any later step
(its result is `firstError` of the ordered step-result list); in particular,
when the versions step passes and the weight step fails, the weight-limit
error is returned no matter what any later step (such as the accounting
balance) would say. -/
theorem validate_fail_fast_ordered_pipeline {I O K C R F E : Type}
    (ck : Checks I O K C R F E) (v : OrphanBlockValidator R F)
    (block : Block I O K) (h : block.header.height ≠ 0) :
    validate ck v block = firstError (stepResults ck v block) ∧
    ∀ e : ValidationError E,
      ck.validate_versions block.body
          (ck.consensus_constants v.rules block.header.height) = Except.ok () →
      ck.check_block_weight block
          (ck.consensus_constants v.rules block.header.height) = Except.error e →
      validate ck v block = Except.error e := by
  have heq : validate ck v block = firstError (stepResults ck v block) := by
    simp only [validate, stepResults, if_neg h]
    simp only [List.append_assoc, firstError_append, firstError_cons, firstError_nil,
      except_bind_assoc, except_bind_pure_unit]
    rw [← checkOutputs_eq_firstError]
  refine ⟨heq, fun e h1 h2 => ?_⟩
  rw [heq]
  simp [stepResults, firstError_append, firstError_cons, h1, h2,
    except_bind_ok, except_bind_error]

/-- Claim C4: validate on any block of height 0 returns ValidatingGenesis no
matter what the block, the collaborator checks or the validator configuration
are; in particular the result does not depend on the check functions at all
(none is invoked). -/
theorem validate_genesis_guard {I O K C R F E : Type}
    (ck ck' : Checks I O K C R F E) (v v' : OrphanBlockValidator R F)
    (block : Block I O K) (h : block.header.height = 0) :
    validate ck v block = Except.error ValidationError.ValidatingGenesis ∧
    validate ck v block = validate ck' v' block := by
  constructor <;> simp [validate, h]

/-- Claim C7: validate is deterministic and pure — two calls on the same
block and the same collaborator state return the same result.  The embedding
is faithful on this point: the source function takes `&self` and `&Block` by
shared reference and uses no interior mutability, so it is a pure function of
its arguments, and purity (absence of mutation of the block or of shared
state) is inherent in its translation to a Lean function. -/
theorem validate_deterministic {I O K C R F E : Type}
    (ck : Checks I O K C R F E) (v : OrphanBlockValidator R F)
    (block : Block I O K) :
    validate ck v block = validate ck v block := rfl

/-- Claim C8: the bypass_range_proof_verification flag, fixed at
construction, is forwarded only to the accounting-balance step: for two
validators differing only in the flag, every step result before the
accounting-balance step is identical on every block, and whenever the
accounting-balance collaborator returns the same result under both flag
values the whole validation result is identical; on the spec-modelled
accounting-balance check, a block whose arithmetic balance closes but whose
range proofs are invalid passes with the flag set and fails (with the
range-proof error) with the flag clear. -/
theorem bypass_flag_only_balance {I O K C R F E : Type}
    (ck : Checks I O K C R F E) (rules : R) (f : F) (block : Block I O K)
    (b1 b2 : Bool) :
    (stepResults ck ⟨rules, b1, f⟩ block).dropLast
      = (stepResults ck ⟨rules, b2, f⟩ block).dropLast ∧
    (ck.check_accounting_balance block rules b1 f
        = ck.check_accounting_balance block rules b2 f →
      validate ck ⟨rules, b1, f⟩ block = validate ck ⟨rules, b2, f⟩ block) ∧
    check_accounting_balance_model true false true = Except.ok () ∧
    check_accounting_balance_model true false false
      = Except.error AccountingError.InvalidRangeProof := by
  refine ⟨?_, fun hb => ?_, rfl, rfl⟩
  · simp only [stepResults]
    rw [dropLast_append_singleton, dropLast_append_singleton]
  · by_cases hh : block.header.height = 0
    · simp [validate, hh]
    · simp only [validate, if_neg hh]
      rw [hb]

/-! ## Witnesses for the validator claims -/

/-- Witness for C1 at a block of height 1 over the concrete bundle whose
weight check fails with code 3 and whose accounting-balance check fails with
code 11: validation returns the weight error, not the balance error. -/
theorem validate_fail_fast_ordered_pipeline_witness :
    validate natChecks ⟨(), false, ()⟩ (blockAt 1)
        = firstError (stepResults natChecks ⟨(), false, ()⟩ (blockAt 1)) ∧
    validate natChecks ⟨(), false, ()⟩ (blockAt 1)
        = Except.error (ValidationError.custom 3) := by
  have h := validate_fail_fast_ordered_pipeline natChecks ⟨(), false, ()⟩
    (blockAt 1) (by decide)
  exact ⟨h.1, h.2 (ValidationError.custom 3) rfl rfl⟩

/-- Witness for C4 at a block of height 0: validation fails with
ValidatingGenesis under two entirely different collaborator bundles and
validator configurations. -/
theorem validate_genesis_guard_witness :
    validate natChecks ⟨(), false, ()⟩ (blockAt 0)
        = Except.error ValidationError.ValidatingGenesis ∧
    validate natChecks ⟨(), false, ()⟩ (blockAt 0)
        = validate okChecks ⟨(), true, ()⟩ (blockAt 0) :=
  validate_genesis_guard natChecks okChecks ⟨(), false, ()⟩ ⟨(), true, ()⟩
    (blockAt 0) rfl

/-- Witness for C8 at a block of height 1 over the all-passing bundle (whose
accounting-balance collaborator ignores the flag): the pre-balance step
results and the overall result agree across the two flag values, and the
spec-modelled balance check passes a closing-balance/invalid-proof block
exactly when the flag is set. -/
theorem bypass_flag_only_balance_witness :
    (stepResults okChecks ⟨(), true, ()⟩ (blockAt 1)).dropLast
        = (stepResults okChecks ⟨(), false, ()⟩ (blockAt 1)).dropLast ∧
    validate okChecks ⟨(), true, ()⟩ (blockAt 1)
        = validate okChecks ⟨(), false, ()⟩ (blockAt 1) ∧
    check_accounting_balance_model true false true = Except.ok () ∧
    check_accounting_balance_model true false false
        = Except.error AccountingError.InvalidRangeProof := by
  have h := bypass_flag_only_balance okChecks () () (blockAt 1) true false
  exact ⟨h.1, h.2.1 rfl, h.2.2.1, h.2.2.2⟩

/-! ## Helper lemmas: codec -/

lemma take_length_append {A : Type} (l1 l2 : List A) :
    (l1 ++ l2).take l1.length = l1 := by simp

lemma drop_length_append {A : Type} (l1 l2 : List A) :
    (l1 ++ l2).drop l1.length = l2 := by simp

lemma from_bytes_ok_helper (bytes : List Nat) (h : bytes.length ≤ MAX_ARR_SIZE) :
    from_bytes bytes = Except.ok
      ⟨bytes ++ List.replicate (MAX_ARR_SIZE - bytes.length) 0, bytes.length⟩ := by
  unfold from_bytes
  rw [if_neg (Nat.not_lt.mpr h), if_neg (by simp [MAX_ARR_SIZE] at h; omega)]
  simp [List.drop_replicate]

lemma from_bytes_err_helper (bytes : List Nat) (h : MAX_ARR_SIZE < bytes.length) :
    from_bytes bytes = Except.error ByteArrayError.IncorrectLength := by
  unfold from_bytes
  rw [if_pos h]

lemma readBytesAcc_ok_helper (n : Nat) (buf : List Nat) (h : n ≤ buf.length) :
    readBytesAcc n buf = (Except.ok (buf.take n), buf.drop n) := by
  induction n generalizing buf with
  | zero => rfl
  | succ n ih =>
    cases buf with
    | nil => simp at h
    | cons b rest =>
      simp only [readBytesAcc, ih rest (by simpa using h), List.take_succ_cons,
        List.drop_succ_cons]

lemma readBytesAcc_eof_helper (n : Nat) (buf : List Nat) (h : buf.length < n) :
    readBytesAcc n buf = (Except.error DecodeError.unexpectedEof, []) := by
  induction n generalizing buf with
  | zero => exact absurd h (Nat.not_lt_zero _)
  | succ n ih =>
    cases buf with
    | nil => rfl
    | cons b rest =>
      simp only [readBytesAcc, ih rest (by simpa using h)]

/-! ## Claim theorems: codec -/

/-- Claim C2: deserialize first reads exactly one length byte L (an empty
stream fails with UnexpectedEof); if L exceeds MAX_ARR_SIZE it fails with the
capacity error (the io InvalidInput "length exceeded maximum" error, the
spec's CapacityExceeded) leaving the whole rest of the stream unread, so
exactly one byte is consumed; if L is within capacity but fewer than L bytes
remain it fails with UnexpectedEof (the spec's Truncated); otherwise it reads
exactly the first L payload bytes and returns whatever from_bytes constructs
from them, leaving the rest of the stream unread. -/
theorem deserialize_length_guard (L : Nat) (rest : List Nat) :
    (MAX_ARR_SIZE < L →
      deserialize (L :: rest) = (Except.error DecodeError.capacityExceeded, rest)) ∧
    (L ≤ MAX_ARR_SIZE → rest.length < L →
      deserialize (L :: rest) = (Except.error DecodeError.unexpectedEof, [])) ∧
    (L ≤ MAX_ARR_SIZE → L ≤ rest.length → ∀ fba : FixedByteArray,
      from_bytes (rest.take L) = Except.ok fba →
      deserialize (L :: rest) = (Except.ok fba, rest.drop L)) ∧
    deserialize [] = (Except.error DecodeError.unexpectedEof, []) := by
  refine ⟨fun h => ?_, fun h1 h2 => ?_, fun h1 h2 fba hf => ?_, rfl⟩
  · simp [deserialize, if_pos h]
  · simp [deserialize, if_neg (Nat.not_lt.mpr h1),
      readBytesAcc_eof_helper L rest h2]
  · simp [deserialize, if_neg (Nat.not_lt.mpr h1),
      readBytesAcc_ok_helper L rest h2, hf]

/-- Witness for C2 at three concrete streams: declared length 64 is rejected
with only the length byte consumed, declared length 3 over a 2-byte remainder
is truncation, and declared length 2 over a 3-byte remainder consumes exactly
the two payload bytes. -/
theorem deserialize_length_guard_witness :
    deserialize (64 :: [1, 2, 3]) = (Except.error DecodeError.capacityExceeded, [1, 2, 3]) ∧
    deserialize (3 :: [5, 6]) = (Except.error DecodeError.unexpectedEof, []) ∧
    deserialize (2 :: [5, 6, 7]) = (Except.ok ⟨[5, 6] ++ List.replicate 61 0, 2⟩, [7]) :=
  ⟨(deserialize_length_guard 64 [1, 2, 3]).1 (by decide),
   (deserialize_length_guard 3 [5, 6]).2.1 (by decide) (by decide),
   (deserialize_length_guard 2 [5, 6, 7]).2.2.1 (by decide) (by decide)
     ⟨[5, 6] ++ List.replicate 61 0, 2⟩ (by decide)⟩

/-- Claim C3: for every byte sequence b of length at most MAX_ARR_SIZE,
serializing the buffer built by from_bytes yields exactly 1 + len(b) bytes,
and deserializing them (with any further bytes appended to the stream) yields
back exactly that buffer while consuming exactly those 1 + len(b) bytes,
leaving the appended remainder unread. -/
theorem serialize_deserialize_round_trip (b extra : List Nat)
    (fba : FixedByteArray) (hlen : b.length ≤ MAX_ARR_SIZE)
    (hfb : from_bytes b = Except.ok fba) :
    (serialize fba).length = 1 + b.length ∧
    deserialize (serialize fba ++ extra) = (Except.ok fba, extra) := by
  rw [from_bytes_ok_helper b hlen] at hfb
  injection hfb with hfb
  subst hfb
  have hser : serialize
      (⟨b ++ List.replicate (MAX_ARR_SIZE - b.length) 0, b.length⟩ : FixedByteArray)
      = b.length :: b := by
    simp [serialize, FixedByteArray.as_slice, FixedByteArray.deref, List.take_take,
      take_length_append]
  rw [hser]
  refine ⟨by simp [Nat.add_comm], ?_⟩
  have hread : readBytesAcc b.length (b ++ extra)
      = (Except.ok ((b ++ extra).take b.length), (b ++ extra).drop b.length) :=
    readBytesAcc_ok_helper b.length (b ++ extra) (by simp)
  rw [take_length_append, drop_length_append] at hread
  simp [deserialize, if_neg (Nat.not_lt.mpr hlen), hread,
    from_bytes_ok_helper b hlen]

/-- Witness for C3 at the 3-byte sequence [5, 6, 7] with trailing stream
bytes [9, 8]: the encoding is 4 bytes and decoding returns the same buffer
with [9, 8] unread. -/
theorem serialize_deserialize_round_trip_witness :
    (serialize ⟨[5, 6, 7] ++ List.replicate 60 0, 3⟩).length = 1 + 3 ∧
    deserialize (serialize ⟨[5, 6, 7] ++ List.replicate 60 0, 3⟩ ++ [9, 8])
      = (Except.ok ⟨[5, 6, 7] ++ List.replicate 60 0, 3⟩, [9, 8]) :=
  serialize_deserialize_round_trip [5, 6, 7] [9, 8]
    ⟨[5, 6, 7] ++ List.replicate 60 0, 3⟩ (by decide) (by decide)

/-- Claim C5: from_bytes on an input of length at most MAX_ARR_SIZE succeeds,
the result's len is exactly the input length, its first len storage bytes are
the input, and every storage byte beyond len is zero; on an input longer than
MAX_ARR_SIZE it fails with IncorrectLength (the spec's CapacityExceeded). -/
theorem from_bytes_spec (bytes : List Nat) :
    (bytes.length ≤ MAX_ARR_SIZE →
      from_bytes bytes = Except.ok
        ⟨bytes ++ List.replicate (MAX_ARR_SIZE - bytes.length) 0, bytes.length⟩ ∧
      ∀ fba : FixedByteArray, from_bytes bytes = Except.ok fba →
        fba.len = bytes.length ∧
        fba.elems.take fba.len = bytes ∧
        fba.elems.drop fba.len = List.replicate (MAX_ARR_SIZE - bytes.length) 0) ∧
    (MAX_ARR_SIZE < bytes.length →
      from_bytes bytes = Except.error ByteArrayError.IncorrectLength) := by
  refine ⟨fun h => ⟨from_bytes_ok_helper bytes h, fun fba hf => ?_⟩,
    fun h => from_bytes_err_helper bytes h⟩
  rw [from_bytes_ok_helper bytes h] at hf
  injection hf with hf
  subst hf
  exact ⟨rfl, take_length_append bytes _, drop_length_append bytes _⟩

/-- Witness for C5 at a 63-byte input (succeeds, len 63, nothing left to
zero-fill) and a 64-byte input (IncorrectLength). -/
theorem from_bytes_spec_witness :
    from_bytes (List.replicate 63 1)
      = Except.ok ⟨List.replicate 63 1 ++ List.replicate 0 0, 63⟩ ∧
    from_bytes (List.replicate 64 1) = Except.error ByteArrayError.IncorrectLength :=
  ⟨((from_bytes_spec (List.replicate 63 1)).1 (by decide)).1,
   (from_bytes_spec (List.replicate 64 1)).2 (by decide)⟩

lemma deserialize_ok_from_bytes (buf rest : List Nat) (fba : FixedByteArray)
    (h : deserialize buf = (Except.ok fba, rest)) :
    ∃ bytes, from_bytes bytes = Except.ok fba := by
  cases buf with
  | nil => simp [deserialize] at h
  | cons L r =>
    by_cases hL : MAX_ARR_SIZE < L
    · simp [deserialize, if_pos hL] at h
    · by_cases h2 : L ≤ r.length
      · have htk : (r.take L).length ≤ MAX_ARR_SIZE := by
          rw [List.length_take]
          exact le_trans (Nat.min_le_left _ _) (Nat.not_lt.mp hL)
        cases hres : from_bytes (r.take L) with
        | ok fb =>
          refine ⟨r.take L, ?_⟩
          rw [hres]
          simp [deserialize, if_neg hL, readBytesAcc_ok_helper L r h2, hres] at h
          rw [h.1]
        | error e =>
          rw [from_bytes_ok_helper (r.take L) htk] at hres
          exact Except.noConfusion hres
      · simp [deserialize, if_neg hL,
          readBytesAcc_eof_helper L r (Nat.not_le.mp h2)] at h

lemma from_bytes_ok_wellFormed (bytes : List Nat) (fba : FixedByteArray)
    (hf : from_bytes bytes = Except.ok fba) :
    fba.len ≤ MAX_ARR_SIZE ∧ fba.elems.length = MAX_ARR_SIZE ∧
      fba.elems.drop fba.len = List.replicate (MAX_ARR_SIZE - fba.len) 0 := by
  by_cases hb : bytes.length ≤ MAX_ARR_SIZE
  · rw [from_bytes_ok_helper bytes hb] at hf
    injection hf with hf
    subst hf
    refine ⟨hb, ?_, drop_length_append bytes _⟩
    simp only [List.length_append, List.length_replicate]
    exact Nat.add_sub_cancel' hb
  · rw [from_bytes_err_helper bytes (Nat.not_le.mp hb)] at hf
    exact Except.noConfusion hf

lemma produced_wellFormed (a : FixedByteArray) (h : Produced a) :
    a.len ≤ MAX_ARR_SIZE ∧ a.elems.length = MAX_ARR_SIZE ∧
      a.elems.drop a.len = List.replicate (MAX_ARR_SIZE - a.len) 0 := by
  cases h with
  | new =>
    refine ⟨Nat.zero_le _, by simp [FixedByteArray.new, FixedByteArray.default], ?_⟩
    simp [FixedByteArray.new, FixedByteArray.default]
  | fromBytes bytes _ hf => exact from_bytes_ok_wellFormed bytes a hf
  | deser buf rest _ hd =>
    obtain ⟨bytes, hf⟩ := deserialize_ok_from_bytes buf rest a hd
    exact from_bytes_ok_wellFormed bytes a hf

/-- Claim C6: over buffers produced by the public constructors (new/default,
from_bytes, deserialize), the structural equality the source derives
coincides with equality of the logical content: two such buffers are equal
exactly when their len fields agree and their first len storage bytes agree;
the trailing storage (always zero on such buffers) never decides the
comparison. -/
theorem eq_iff_logical_content (a b : FixedByteArray)
    (ha : Produced a) (hb : Produced b) :
    a = b ↔ a.len = b.len ∧ a.elems.take a.len = b.elems.take b.len := by
  constructor
  · rintro rfl
    exact ⟨rfl, rfl⟩
  · obtain ⟨-, -, hda⟩ := produced_wellFormed a ha
    obtain ⟨-, -, hdb⟩ := produced_wellFormed b hb
    obtain ⟨ea, la⟩ := a
    obtain ⟨eb, lb⟩ := b
    rintro ⟨hlen, htake⟩
    simp only at hlen htake hda hdb
    subst hlen
    have helems : ea = eb := by
      rw [← List.take_append_drop la ea, ← List.take_append_drop la eb,
        htake, hda, hdb]
    rw [helems]

/-- Witness for C6 on two concretely produced buffers of different logical
content: the equivalence instantiates to a falsehood on each side. -/
theorem eq_iff_logical_content_witness :
    ((⟨[1, 2] ++ List.replicate 61 0, 2⟩ : FixedByteArray)
        = (⟨[1] ++ List.replicate 62 0, 1⟩ : FixedByteArray)) ↔
      ((⟨[1, 2] ++ List.replicate 61 0, 2⟩ : FixedByteArray).len
          = (⟨[1] ++ List.replicate 62 0, 1⟩ : FixedByteArray).len ∧
        ([1, 2] ++ List.replicate 61 0).take 2 = ([1] ++ List.replicate 62 0).take 1) :=
  eq_iff_logical_content ⟨[1, 2] ++ List.replicate 61 0, 2⟩
    ⟨[1] ++ List.replicate 62 0, 1⟩
    (Produced.fromBytes [1, 2] ⟨[1, 2] ++ List.replicate 61 0, 2⟩ (by decide))
    (Produced.fromBytes [1] ⟨[1] ++ List.replicate 62 0, 1⟩ (by decide))

/-- Claim C9: every buffer produced by a public constructor satisfies
len ≤ MAX_ARR_SIZE, and every read-only view — the deref slice, as_slice,
as_bytes, and the payload the serializer writes — is exactly the first len
storage bytes, so storage beyond len is never exposed by a read. -/
theorem produced_invariant_reads (a : FixedByteArray) (h : Produced a) :
    a.len ≤ MAX_ARR_SIZE ∧
    a.deref = a.elems.take a.len ∧
    a.as_slice = a.elems.take a.len ∧
    a.as_bytes = a.elems.take a.len ∧
    serialize a = a.len :: a.elems.take a.len := by
  obtain ⟨hlen, -, -⟩ := produced_wellFormed a h
  have hs : a.as_slice = a.elems.take a.len := by
    simp [FixedByteArray.as_slice, FixedByteArray.deref, List.take_take]
  refine ⟨hlen, rfl, hs, hs, ?_⟩
  simp [serialize, hs, List.take_take]

/-- Witness for C9 on a concretely produced 2-byte buffer: len is within
capacity and every read view is exactly the two payload bytes. -/
theorem produced_invariant_reads_witness :
    (⟨[1, 2] ++ List.replicate 61 0, 2⟩ : FixedByteArray).len ≤ MAX_ARR_SIZE ∧
    (⟨[1, 2] ++ List.replicate 61 0, 2⟩ : FixedByteArray).deref
      = ([1, 2] ++ List.replicate 61 0).take 2 ∧
    (⟨[1, 2] ++ List.replicate 61 0, 2⟩ : FixedByteArray).as_slice
      = ([1, 2] ++ List.replicate 61 0).take 2 ∧
    (⟨[1, 2] ++ List.replicate 61 0, 2⟩ : FixedByteArray).as_bytes
      = ([1, 2] ++ List.replicate 61 0).take 2 ∧
    serialize ⟨[1, 2] ++ List.replicate 61 0, 2⟩
      = 2 :: ([1, 2] ++ List.replicate 61 0).take 2 :=
  produced_invariant_reads ⟨[1, 2] ++ List.replicate 61 0, 2⟩
    (Produced.fromBytes [1, 2] ⟨[1, 2] ++ List.replicate 61 0, 2⟩ (by decide))

/-- Claim C10: the unwrap inside deserialize is unreachable — once the length
guard has passed and the payload bytes have been read, from_bytes on them
always succeeds, so deserialize never reaches the panic outcome on any input
stream. -/
theorem deserialize_no_panic (buf : List Nat) :
    (deserialize buf).1 ≠ Except.error DecodeError.unreachablePanic := by
  cases buf with
  | nil => simp [deserialize]
  | cons L rest =>
    by_cases hL : MAX_ARR_SIZE < L
    · simp [deserialize, if_pos hL]
    · by_cases h2 : L ≤ rest.length
      · have htk : (rest.take L).length ≤ MAX_ARR_SIZE := by
          rw [List.length_take]
          exact le_trans (Nat.min_le_left _ _) (Nat.not_lt.mp hL)
        simp [deserialize, if_neg hL, readBytesAcc_ok_helper L rest h2,
          from_bytes_ok_helper (rest.take L) htk]
      · simp [deserialize, if_neg hL,
          readBytesAcc_eof_helper L rest (Nat.not_le.mp h2)]
